import Mathlib

/-!
Verification of the NotebookLM automation driver of `digital-pm-mcp`.

The JavaScript sources are shallowly embedded: pure string manipulation is
translated directly; browser / process effects are modelled by explicit
outcome parameters (every `await` that can fail becomes an `Except` input)
and by traces of the UI actions a function performs.  All definitions are
executable, so each theorem can be evaluated on concrete inputs.
-/

namespace DigitalPM

/-! ### Character-list string primitives

JavaScript's `String.prototype.includes`, `startsWith`, `endsWith`,
`toLowerCase`, `trim` and `split(sep)[0]`, modelled on `List Char`. -/

/-- Bool test that `n` is a prefix of `h`, written out so that the bridge to
the propositional form is self-contained. -/
def isPrefixList (n h : List Char) : Bool :=
  match n, h with
  | [], _ => true
  | _ :: _, [] => false
  | a :: n', b :: h' => (a == b) && isPrefixList n' h'

/-- Scan of `h` for `n` as a contiguous sub-list (JS `includes`). -/
def inclAux (n : List Char) : List Char → Bool
  | [] => isPrefixList n []
  | c :: rest => isPrefixList n (c :: rest) || inclAux n rest

/-- JS `hay.includes(needle)`. -/
def strIncludes (hay needle : String) : Bool :=
  inclAux needle.data hay.data

/-- JS `s.startsWith(p)`. -/
def strStartsWith (s p : String) : Bool :=
  isPrefixList p.data s.data

/-- JS `s.endsWith(p)`. -/
def strEndsWith (s p : String) : Bool :=
  isPrefixList p.data.reverse s.data.reverse

/-- JS `s.toLowerCase()` (ASCII-adequate, as in the source's regexes). -/
def lowerStr (s : String) : String :=
  String.mk (s.data.map Char.toLower)

/-- JS `s.trim()`. -/
def trimStr (s : String) : String :=
  String.mk (((s.data.dropWhile Char.isWhitespace).reverse.dropWhile
    Char.isWhitespace).reverse)

/-- JS `url.split('?')[0]`: everything before the first `'?'`. -/
def stripQuery (url : String) : String :=
  String.mk (url.data.takeWhile (fun c => c ≠ '?'))

/-! ### Retry Orchestrator (`tools/query.js`, retrying variant)

`isAuthError` embeds `/auth|login|session|authenticate/i.test(msg)`;
`retryGo` embeds the `for (attempt = 1; attempt <= MAX_RETRIES; attempt++)`
loop of `handleQuery`, with each attempt's `callNotebookLM` outcome supplied
by the `outcomes` oracle.  The returned triple is (final outcome, index of
the last attempt actually performed, list of the inter-attempt sleeps in
milliseconds). -/

def MAX_RETRIES : Nat := 3

def RETRY_DELAY_MS : Nat := 2500

def isAuthError (msg : String) : Bool :=
  strIncludes (lowerStr msg) "auth" || strIncludes (lowerStr msg) "login" ||
    strIncludes (lowerStr msg) "session" || strIncludes (lowerStr msg) "authenticate"

inductive QueryOutcome where
  | success (answer : String) (attempt : Nat)
  | exhausted (lastMsg : String)
deriving DecidableEq

/-- The retry loop.  The `fuel` argument is `MAX_RETRIES` at the top call and
only counts loop iterations; the guard `attempt < MAX_RETRIES` in
`shouldRetry` means the `fuel = 0` branch is never reached from
`handleQueryRetry`. -/
def retryGo (outcomes : Nat → Except String String) : Nat → Nat → QueryOutcome × Nat × List Nat
  | attempt, fuel + 1 =>
    match outcomes attempt with
    | Except.ok a => (QueryOutcome.success a attempt, attempt, [])
    | Except.error e =>
      if isAuthError e && decide (attempt < MAX_RETRIES) then
        let r := retryGo outcomes (attempt + 1) fuel
        (r.1, r.2.1, RETRY_DELAY_MS :: r.2.2)
      else (QueryOutcome.exhausted e, attempt, [])
  | attempt, 0 => (QueryOutcome.exhausted "", attempt, [])

def handleQueryRetry (outcomes : Nat → Except String String) : QueryOutcome × Nat × List Nat :=
  retryGo outcomes 1 MAX_RETRIES

/-! ### Exhaustion message of the retrying `handleQuery`

The `join('\n')` of the literal fragments is written out; `lastMsg` stands
for `lastErr.message`. -/

def authFixText : String :=
  "This is a **notebooklm-mcp session issue**. Quick fix:\n\n```\nnpx notebooklm-mcp@latest\n# then use the setup_auth tool to re-authenticate\n```\n\nOnce re-authenticated, restart Claude Code and try again."

def unknownFixText : String :=
  "Make sure `notebooklm-mcp` is installed and your Google session is active, then try again."

def exhaustionText (lastMsg : String) : String :=
  "## ⚠️ Digital PM Query Unavailable\n\nFailed after " ++ toString MAX_RETRIES ++
    " attempts: **" ++ lastMsg ++ "**\n\n" ++
    (if isAuthError lastMsg then authFixText else unknownFixText)

/-! ### Session Acquirer (`openPersistentContext` in `browser-source.js`)

Launch attempts and the best-effort `fs.cp` are effects; they enter the
model as an `AcquireEnv` of outcomes.  `profileFiles` is the list of file
base names inside the durable Chrome profile.  When `copyFails` is true the
clone aborted after `copyCount` files (`fs.cp` applies its filter file by
file, so the part that was copied is a prefix of the filtered list). -/

def isSingletonErr (msg : String) : Bool :=
  strIncludes (lowerStr msg) "processsingleton" ||
    strIncludes (lowerStr msg) "singletonlock" ||
    strIncludes (lowerStr msg) "profile is already in use"

def keepInClone (basename : String) : Bool :=
  !strStartsWith (lowerStr basename) "singleton" &&
    !strEndsWith basename ".lock" && !strEndsWith basename ".tmp"

structure AcquireEnv where
  baseLaunch : Except String Unit
  copyFails : Bool
  copyCount : Nat
  cloneLaunch : Except String Unit

inductive Workspace where
  | base
  | clone
deriving DecidableEq

structure Acquired where
  workspace : Workspace
  copied : List String
  tempDir : Bool
deriving DecidableEq

/-- Result of `openPersistentContext` together with whether the isolated
instance directory was physically created (`fs.mkdir`), even on the paths
where the call itself throws. -/
structure AcquireResult where
  result : Except String Acquired
  tempCreated : Bool

def clonedFiles (env : AcquireEnv) (profileFiles : List String) : List String :=
  let kept := profileFiles.filter keepInClone
  if env.copyFails then kept.take env.copyCount else kept

def openPersistentContext (env : AcquireEnv) (profileFiles : List String) : AcquireResult :=
  match env.baseLaunch with
  | Except.ok _ => ⟨Except.ok ⟨Workspace.base, [], false⟩, false⟩
  | Except.error e =>
    if isSingletonErr e then
      match env.cloneLaunch with
      | Except.ok _ => ⟨Except.ok ⟨Workspace.clone, clonedFiles env profileFiles, true⟩, true⟩
      | Except.error e2 => ⟨Except.error e2, true⟩
    else ⟨Except.error e, false⟩

def isOkE {α : Type} : Except String α → Bool
  | Except.ok _ => true
  | Except.error _ => false

/-! ### `withNotebookPage` and `createNotebook` (`browser-source.js`)

Each `await` inside the `try` block that can throw is an `Except` field;
the `finally` block is the cleanup part of the returned `CleanupTrace`. -/

structure PageSteps where
  newPage : Except String Unit
  goto : Except String Unit
  waitInput : Except String Unit
  fn : Except String String

def runPageSteps (p : PageSteps) : Except String String :=
  match p.newPage with
  | Except.error e => Except.error e
  | Except.ok _ =>
    match p.goto with
    | Except.error e => Except.error e
    | Except.ok _ =>
      match p.waitInput with
      | Except.error e => Except.error e
      | Except.ok _ => p.fn

structure CleanupTrace where
  ctxOpened : Bool
  ctxClosed : Bool
  tempCreated : Bool
  tempRemoved : Bool
deriving DecidableEq

def withNotebookPage (env : AcquireEnv) (profileFiles : List String) (p : PageSteps) :
    Except String String × CleanupTrace :=
  match openPersistentContext env profileFiles with
  | ⟨Except.error e, created⟩ => (Except.error e, ⟨false, false, created, false⟩)
  | ⟨Except.ok acq, created⟩ => (runPageSteps p, ⟨true, true, created, acq.tempDir⟩)

/-! ### Repository Creator (`createNotebook` in `browser-source.js`) -/

/-- The readiness test of the URL poll: a real `/notebook/<id>` URL that is
not the transient `/notebook/creating` placeholder. -/
def notebookUrlReady (url : String) : Bool :=
  strIncludes url "/notebook/" && !strIncludes url "/notebook/creating"

/-- The `while (Date.now() < deadline)` poll: `polled` is the sequence of
values of `page.url()` observed before the deadline; the first ready one is
taken and its query string stripped; `none` is the timeout. -/
def createNotebookPollResult (polled : List String) : Option String :=
  (polled.find? notebookUrlReady).map stripQuery

structure CreateSteps where
  newPage : Except String Unit
  goto : Except String Unit
  clicked : Bool
  polledUrls : List String
  waitInput : Except String Unit

def createNotebookBody (c : CreateSteps) : Except String String :=
  match c.newPage with
  | Except.error e => Except.error e
  | Except.ok _ =>
    match c.goto with
    | Except.error e => Except.error e
    | Except.ok _ =>
      if !c.clicked then
        Except.error "Could not find \"New notebook\" button on notebooklm.google.com. Make sure notebooklm-mcp is authenticated (run setup_auth first)."
      else
        match createNotebookPollResult c.polledUrls with
        | none => Except.error "Timed out waiting for new notebook to open"
        | some url =>
          match c.waitInput with
          | Except.error e => Except.error e
          | Except.ok _ => Except.ok url

def createNotebook (env : AcquireEnv) (profileFiles : List String) (c : CreateSteps) :
    Except String String × CleanupTrace :=
  match openPersistentContext env profileFiles with
  | ⟨Except.error e, created⟩ => (Except.error e, ⟨false, false, created, false⟩)
  | ⟨Except.ok acq, created⟩ => (createNotebookBody c, ⟨true, true, created, acq.tempDir⟩)

/-! ### Dialog Controller (`openAddSourcesDialog`, `addUrlSources`) -/

inductive UIStep where
  | checkBackdrop
  | waitAddSourceButton
  | clickAddSource
  | waitSourceTypeButtons
deriving DecidableEq

/-- The action sequence of `openAddSourcesDialog(page)`: the backdrop probe,
then — only when no `.cdk-overlay-backdrop` is showing — the wait for and
click on the `Add source` button, then the wait for the source-type
buttons. -/
def openAddSourcesDialog (backdropPresent : Bool) : List UIStep :=
  UIStep.checkBackdrop ::
    (if backdropPresent then [] else [UIStep.waitAddSourceButton, UIStep.clickAddSource]) ++
      [UIStep.waitSourceTypeButtons]

inductive SourceStep where
  | openSession
  | navigate
  | openDialog
  | clickWebsites
  | fillUrls (payload : String)
  | clickInsert
  | waitDialogClosed
  | settle
deriving DecidableEq

/-- The action sequence of `addUrlSources(urls, notebookUrl)`.  `none`
models a null/undefined `urls` argument (JS `!urls`). -/
def addUrlSources (urls : Option (List String)) : List SourceStep :=
  match urls with
  | none => []
  | some us =>
    if us.length = 0 then []
    else
      [SourceStep.openSession, SourceStep.navigate, SourceStep.openDialog,
        SourceStep.clickWebsites, SourceStep.fillUrls (String.intercalate "\n" us),
        SourceStep.clickInsert, SourceStep.waitDialogClosed, SourceStep.settle]

/-! ### DuckDuckGo result parsing (`parseDDGResults`) and the init filter

The two regex scans are abstracted as inputs: `links` holds, per
`result__a` match, the value `extractRealUrl(rawHref)` (`none` for a null)
plus the cleaned title and snippet; `broadMatches` holds every
`href="http(s)://…"` URL the broad fallback scan would visit, the negative
lookahead being applied afterwards by `lookaheadOk`. -/

structure SearchResult where
  url : String
  title : String
  description : String
deriving DecidableEq

structure DDGPage where
  links : List (Option String × String × String)
  broadMatches : List String
deriving DecidableEq

def DDG_MAX_RESULTS : Nat := 5

/-- The shape enforced by the fallback regex
`https?:\/\/(?!(?:www\.)?duckduckgo\.com)[^"]+`: the URL starts with a
scheme and what follows the scheme does not begin with
`duckduckgo.com` or `www.duckduckgo.com`. -/
def lookaheadOk (u : String) : Bool :=
  (strStartsWith u "http://" || strStartsWith u "https://") &&
    !(strStartsWith u "https://duckduckgo.com" ||
      strStartsWith u "https://www.duckduckgo.com" ||
      strStartsWith u "http://duckduckgo.com" ||
      strStartsWith u "http://www.duckduckgo.com")

def ddgPrimaryResults (page : DDGPage) : List SearchResult :=
  (page.links.take DDG_MAX_RESULTS).filterMap fun ent =>
    match ent.1 with
    | none => none
    | some url =>
      if url = "" || strIncludes url "duckduckgo.com" then none
      else some ⟨url, ent.2.1, ent.2.2⟩

def ddgFallbackResults (page : DDGPage) : List SearchResult :=
  ((page.broadMatches.filter lookaheadOk).take DDG_MAX_RESULTS).map fun u => ⟨u, u, ""⟩

def parseDDGResults (page : DDGPage) : List SearchResult :=
  if (ddgPrimaryResults page).length = 0 then ddgFallbackResults page
  else ddgPrimaryResults page

/-- `handleInit`'s URL collection:
`researchResults.flatMap(r => r.results).map(r => r.url).filter(url => url && !url.includes('duckduckgo.com'))`. -/
def initCollectUrls (research : List (String × List SearchResult)) : List String :=
  (((research.map Prod.snd).flatten.map SearchResult.url).filter
    fun u => !(u = "" : Bool) && !strIncludes u "duckduckgo.com")

/-! ### Subprocess `callNotebookLM` tool-level failure detection
(`services/notebooklm.js`)

`JSON.parse` is abstracted as the `parsed` input (`none` when it throws);
`JVal` is the parse result. -/

inductive JVal where
  | jnull
  | jbool (b : Bool)
  | jnum (n : Int)
  | jstr (s : String)
  | jarr (xs : List JVal)
  | jobj (fields : List (String × JVal))

def jlookup (fields : List (String × JVal)) (key : String) : Option JVal :=
  match fields with
  | [] => none
  | kv :: rest => if kv.1 = key then some kv.2 else jlookup rest key

/-- The post-processing of the joined text content: when the trimmed text
starts with a brace and parses to an object with `success === false` and a
string `error`, that error string is thrown; otherwise the text is returned
unchanged. -/
def detectAuthFailure (text : String) (parsed : Option JVal) : Except String String :=
  if strStartsWith (trimStr text) "\x7b" then
    match parsed with
    | some (JVal.jobj fields) =>
      match jlookup fields "success", jlookup fields "error" with
      | some (JVal.jbool false), some (JVal.jstr e) => Except.error e
      | _, _ => Except.ok text
    | _ => Except.ok text
  else Except.ok text

/-! ### Query Engine stabilization -/

/-- Modelled from the spec: the polling body of `queryNotebook` in
`browser-source.js` is not among these sources (only its caller
`callNotebookLM` and the changelog describe it).  §3 StabilizationState:
the last poll text plus the counter of consecutive matches. -/
structure StabState where
  last : Option String
  count : Nat
deriving DecidableEq

/-- Modelled from the spec: one poll.  A non-empty read equal to the
previous read increments the counter; any mismatch (or an empty read)
resets the counter to zero. -/
def stabStep (s : StabState) (t : String) : StabState :=
  if t ≠ "" ∧ s.last = some t then ⟨some t, s.count + 1⟩ else ⟨some t, 0⟩

/-- Modelled from the spec: the poll loop.  After a poll the counter value 2
means three consecutive identical non-empty reads — the final answer; the
list running out is the overall deadline (`ResponseTimeout`). -/
def pollLoop : StabState → List String → Option String
  | _, [] => none
  | s, t :: ts =>
    let s' := stabStep s t
    if 2 ≤ s'.count then some t else pollLoop s' ts

/-- Modelled from the spec: `queryNotebook` applied to the sequence of
texts the answer region shows at the successive polls. -/
def queryNotebook (polls : List String) : Option String :=
  pollLoop ⟨none, 0⟩ polls

/-- Whether a run of three identical non-empty polls starts right here. -/
def tripleAt (a : String) : List String → Bool
  | b :: c :: _ => decide (a ≠ "") && (a == b) && (b == c)
  | _ => false

/-- Whether the poll list contains three consecutive identical non-empty
entries anywhere. -/
def hasTriple : List String → Bool
  | [] => false
  | a :: xs => tripleAt a xs || hasTriple xs

/-! ## Theorems -/

theorem isPrefixList_iff (n h : List Char) :
    isPrefixList n h = true ↔ ∃ t, h = n ++ t := by
  induction n generalizing h with
  | nil => simp [isPrefixList]
  | cons a n' ih =>
    cases h with
    | nil => simp [isPrefixList]
    | cons b h' =>
      simp only [isPrefixList, Bool.and_eq_true, beq_iff_eq, ih]
      constructor
      · rintro ⟨rfl, t, rfl⟩
        exact ⟨t, rfl⟩
      · rintro ⟨t, ht⟩
        cases ht
        exact ⟨rfl, t, rfl⟩

theorem inclAux_iff (n h : List Char) :
    inclAux n h = true ↔ ∃ s t, h = s ++ n ++ t := by
  induction h with
  | nil =>
    simp only [inclAux, isPrefixList_iff]
    constructor
    · rintro ⟨t, ht⟩
      exact ⟨[], t, by simpa using ht⟩
    · rintro ⟨s, t, ht⟩
      exact ⟨s ++ t, by
        have := ht.symm
        simp only [List.append_assoc] at this ⊢
        cases s <;> simp_all⟩
  | cons c rest ih =>
    simp only [inclAux, Bool.or_eq_true, isPrefixList_iff, ih]
    constructor
    · rintro (⟨t, ht⟩ | ⟨s, t, ht⟩)
      · exact ⟨[], t, by simpa using ht⟩
      · exact ⟨c :: s, t, by simp [ht]⟩
    · rintro ⟨s, t, ht⟩
      cases s with
      | nil => exact Or.inl ⟨t, by simpa using ht⟩
      | cons x s' =>
        right
        obtain ⟨rfl, h2⟩ : x = c ∧ s' ++ (n ++ t) = rest := by
          simpa using ht.symm
        exact ⟨s', t, by simp [← h2]⟩

theorem strIncludes_iff (hay needle : String) :
    strIncludes hay needle = true ↔ ∃ s t, hay.data = s ++ needle.data ++ t :=
  inclAux_iff needle.data hay.data

theorem strIncludes_of_append (a b needle : String)
    (h : strIncludes b needle = true) : strIncludes (a ++ b) needle = true := by
  rw [strIncludes_iff] at h ⊢
  obtain ⟨s, t, ht⟩ := h
  exact ⟨a.data ++ s, t, by simp [ht]⟩

theorem strIncludes_mid (a m b : String) :
    strIncludes (a ++ m ++ b) m = true := by
  rw [strIncludes_iff]
  exact ⟨a.data, b.data, by simp⟩

theorem stripQuery_no_query (url : String) :
    strIncludes (stripQuery url) "?" = false := by
  cases h : strIncludes (stripQuery url) "?" with
  | false => rfl
  | true =>
    rw [strIncludes_iff] at h
    obtain ⟨s, t, ht⟩ := h
    have hq : '?' ∈ (stripQuery url).data := by
      rw [ht]
      simp [String.data]
    have := List.mem_takeWhile_imp hq
    simp at this

theorem strIncludes_stripQuery_le (url needle : String)
    (h : strIncludes (stripQuery url) needle = true) :
    strIncludes url needle = true := by
  rw [strIncludes_iff] at h ⊢
  obtain ⟨s, t, ht⟩ := h
  refine ⟨s, t ++ url.data.dropWhile (fun c => c ≠ '?'), ?_⟩
  have hsplit :
      url.data.takeWhile (fun c => c ≠ '?') ++ url.data.dropWhile (fun c => c ≠ '?') =
        url.data := List.takeWhile_append_dropWhile _ _
  have hdata : (stripQuery url).data = url.data.takeWhile (fun c => c ≠ '?') := rfl
  rw [hdata] at ht
  calc url.data = url.data.takeWhile (fun c => c ≠ '?') ++
          url.data.dropWhile (fun c => c ≠ '?') := hsplit.symm
    _ = (s ++ needle.data ++ t) ++ url.data.dropWhile (fun c => c ≠ '?') := by rw [← ht]
    _ = s ++ needle.data ++ (t ++ url.data.dropWhile (fun c => c ≠ '?')) := by
          simp [List.append_assoc]

/-- C7: `openAddSourcesDialog` performs the explicit open-click on the
`Add source` control exactly when no overlay backdrop is showing; with the
backdrop present (dialog auto-opened, e.g. on a newly created notebook) the
click is skipped. -/
theorem add_sources_click_iff_no_backdrop (backdropPresent : Bool) :
    UIStep.clickAddSource ∈ openAddSourcesDialog backdropPresent ↔
      backdropPresent = false := by
  cases backdropPresent <;> decide

/-- C8: `addUrlSources` with a null/undefined or empty URL list is an
immediate no-op: it performs no browser-session, navigation, dialog or
submission step at all. -/
theorem addUrlSources_empty_noop (urls : Option (List String))
    (h : urls = none ∨ urls = some []) : addUrlSources urls = [] := by
  rcases h with rfl | rfl <;> rfl

theorem addUrlSources_empty_noop_witness : addUrlSources (some []) = [] :=
  addUrlSources_empty_noop (some []) (Or.inr rfl)

/-- C3: `openPersistentContext` — when launching on the durable profile
fails with the recognizable already-in-use class and launching on the clone
succeeds, the caller gets a successful context on the cloned workspace
whose copied files all pass the lock/temp-marker filter; any other launch
failure is surfaced unchanged; an error of the best-effort copy itself does
not change whether the call succeeds. -/
theorem session_acquirer_contract (env : AcquireEnv) (files : List String) :
    (∀ e, env.baseLaunch = Except.error e → isSingletonErr e = true →
      env.cloneLaunch = Except.ok () →
        (openPersistentContext env files).result =
            Except.ok ⟨Workspace.clone, clonedFiles env files, true⟩ ∧
          (openPersistentContext env files).tempCreated = true ∧
          ∀ f ∈ clonedFiles env files, keepInClone f = true) ∧
    (∀ e, env.baseLaunch = Except.error e → isSingletonErr e = false →
        (openPersistentContext env files).result = Except.error e) ∧
    (∀ b k, isOkE (openPersistentContext ⟨env.baseLaunch, b, k, env.cloneLaunch⟩ files).result =
        isOkE (openPersistentContext env files).result) := by
  have hkeep : ∀ f ∈ clonedFiles env files, keepInClone f = true := by
    intro f hf
    unfold clonedFiles at hf
    by_cases hc : env.copyFails
    · rw [if_pos hc] at hf
      exact (List.mem_filter.mp (List.mem_of_mem_take hf)).2
    · rw [if_neg hc] at hf
      exact (List.mem_filter.mp hf).2
  refine ⟨?_, ?_, ?_⟩
  · intro e hbase hsing hclone
    unfold openPersistentContext
    rw [hbase, hclone]
    simp [hsing]
    exact hkeep
  · intro e hbase hsing
    unfold openPersistentContext
    rw [hbase]
    simp [hsing]
  · intro b k
    unfold openPersistentContext
    cases env.baseLaunch with
    | ok _ => rfl
    | error e =>
      by_cases hs : isSingletonErr e = true
      · simp only [hs, if_true]
        cases env.cloneLaunch <;> rfl
      · simp [hs]

theorem session_acquirer_contract_witness :
    (openPersistentContext ⟨Except.error "SingletonLock held by pid 4242", false, 0, Except.ok ()⟩
        ["Cookies", "SingletonLock", "Prefs.lock", "scratch.tmp"]).result =
      Except.ok ⟨Workspace.clone,
        clonedFiles ⟨Except.error "SingletonLock held by pid 4242", false, 0, Except.ok ()⟩
          ["Cookies", "SingletonLock", "Prefs.lock", "scratch.tmp"], true⟩ :=
  ((session_acquirer_contract _ _).1 "SingletonLock held by pid 4242" rfl (by decide) rfl).1

/-- C4 counterexample: with the durable profile locked (singleton failure)
and the launch on the cloned workspace itself failing,
`openPersistentContext` throws after `fs.mkdir` created the instance
directory but before `withNotebookPage`'s try/finally is entered, so this
exit path leaves the clone directory in place. -/
theorem cleanup_clone_leak :
    ((withNotebookPage
        ⟨Except.error "ProcessSingleton: profile is already in use", false, 0,
          Except.error "browserType.launchPersistentContext: failed to launch"⟩
        ["Cookies"]
        ⟨Except.ok (), Except.ok (), Except.ok (), Except.ok "answer"⟩).2.tempCreated = true) ∧
    ((withNotebookPage
        ⟨Except.error "ProcessSingleton: profile is already in use", false, 0,
          Except.error "browserType.launchPersistentContext: failed to launch"⟩
        ["Cookies"]
        ⟨Except.ok (), Except.ok (), Except.ok (), Except.ok "answer"⟩).2.tempRemoved = false) := by
  decide

/-- C4 (amended): once session acquisition succeeds, every exit path of
`withNotebookPage` and `createNotebook` — normal return, thrown error or
timeout of any step in the try block — closes the context and removes the
cloned workspace directory whenever one was created.  (When acquisition
itself fails while launching on the clone, the already-created directory is
not removed, per the counterexample.) -/
theorem scoped_cleanup (env : AcquireEnv) (files : List String) (p : PageSteps)
    (c : CreateSteps) (h : isOkE (openPersistentContext env files).result = true) :
    (withNotebookPage env files p).2.ctxClosed = true ∧
    ((withNotebookPage env files p).2.tempCreated = true →
      (withNotebookPage env files p).2.tempRemoved = true) ∧
    (createNotebook env files c).2.ctxClosed = true ∧
    ((createNotebook env files c).2.tempCreated = true →
      (createNotebook env files c).2.tempRemoved = true) := by
  unfold withNotebookPage createNotebook
  unfold openPersistentContext at h ⊢
  cases hbase : env.baseLaunch with
  | ok u => simp
  | error e =>
    rw [hbase] at h
    by_cases hs : isSingletonErr e = true
    · simp only [hs, if_true] at h ⊢
      cases hclone : env.cloneLaunch with
      | ok u => simp
      | error e2 => rw [hclone] at h; simp [isOkE] at h
    · simp only [hs, if_false] at h
      simp [isOkE] at h

theorem scoped_cleanup_witness :
    ((withNotebookPage ⟨Except.ok (), false, 0, Except.ok ()⟩ []
        ⟨Except.ok (), Except.ok (), Except.error "NavigationTimeout", Except.ok "x"⟩).2.ctxClosed
      = true) :=
  (scoped_cleanup ⟨Except.ok (), false, 0, Except.ok ()⟩ []
    ⟨Except.ok (), Except.ok (), Except.error "NavigationTimeout", Except.ok "x"⟩
    ⟨Except.ok (), Except.ok (), true, [], Except.ok ()⟩ (by decide)).1

theorem createNotebookBody_ok_poll (c : CreateSteps) (u : String)
    (h : createNotebookBody c = Except.ok u) :
    createNotebookPollResult c.polledUrls = some u := by
  unfold createNotebookBody at h
  cases hn : c.newPage with
  | error e => rw [hn] at h; exact absurd h (by simp)
  | ok _ =>
    rw [hn] at h
    cases hg : c.goto with
    | error e => rw [hg] at h; exact absurd h (by simp)
    | ok _ =>
      rw [hg] at h
      cases hc : c.clicked with
      | false => rw [hc] at h; exact absurd h (by simp)
      | true =>
        rw [hc] at h
        simp only [Bool.not_true, Bool.false_eq_true, if_false] at h
        cases hp : createNotebookPollResult c.polledUrls with
        | none => rw [hp] at h; exact absurd h (by simp)
        | some url =>
          rw [hp] at h
          cases hw : c.waitInput with
          | error e => rw [hw] at h; exact absurd h (by simp)
          | ok _ =>
            rw [hw] at h
            simp only [Except.ok.injEq] at h
            rw [h]

/-- C2: every URL `createNotebook` successfully returns comes from a polled
URL that passed the readiness test — it contains `/notebook/` but not the
transient `/notebook/creating` placeholder — and its query string has been
stripped, so the returned handle never contains the provisioning
placeholder segment and carries no query parameters. -/
theorem createNotebook_no_placeholder (env : AcquireEnv) (files : List String)
    (c : CreateSteps) (u : String)
    (h : (createNotebook env files c).1 = Except.ok u) :
    strIncludes u "/notebook/creating" = false ∧ strIncludes u "?" = false ∧
      ∃ v ∈ c.polledUrls, notebookUrlReady v = true ∧ u = stripQuery v := by
  have hb : createNotebookBody c = Except.ok u := by
    unfold createNotebook at h
    cases hacq : openPersistentContext env files with
    | mk res created =>
      rw [hacq] at h
      cases res with
      | error e => simp at h
      | ok acq => simpa using h
  have hp := createNotebookBody_ok_poll c u hb
  unfold createNotebookPollResult at hp
  rw [Option.map_eq_some'] at hp
  obtain ⟨v, hfind, rfl⟩ := hp
  have hpred := List.find?_some hfind
  have hmem := List.mem_of_find?_eq_some hfind
  have hnc : strIncludes v "/notebook/creating" = false := by
    unfold notebookUrlReady at hpred
    have := (Bool.and_eq_true _ _).mp hpred
    simpa using this.2
  refine ⟨?_, stripQuery_no_query v, v, hmem, hpred, rfl⟩
  cases hsq : strIncludes (stripQuery v) "/notebook/creating" with
  | false => rfl
  | true => rw [strIncludes_stripQuery_le v _ hsq] at hnc; exact Bool.noConfusion hnc

theorem createNotebook_no_placeholder_witness :
    strIncludes "https://notebooklm.google.com/notebook/abc123" "/notebook/creating" = false ∧
      strIncludes "https://notebooklm.google.com/notebook/abc123" "?" = false ∧
      ∃ v ∈ ["https://notebooklm.google.com/notebook/creating",
          "https://notebooklm.google.com/notebook/abc123?authuser=0"],
        notebookUrlReady v = true ∧
          "https://notebooklm.google.com/notebook/abc123" = stripQuery v :=
  createNotebook_no_placeholder ⟨Except.ok (), false, 0, Except.ok ()⟩ []
    ⟨Except.ok (), Except.ok (), true,
      ["https://notebooklm.google.com/notebook/creating",
        "https://notebooklm.google.com/notebook/abc123?authuser=0"], Except.ok ()⟩
    "https://notebooklm.google.com/notebook/abc123" rfl

theorem retryGo_spec (outcomes : Nat → Except String String) (fuel a : Nat) :
    a ≤ (retryGo outcomes a fuel).2.1 ∧
    (retryGo outcomes a fuel).2.1 ≤ max a MAX_RETRIES ∧
    (∀ d ∈ (retryGo outcomes a fuel).2.2, d = RETRY_DELAY_MS) ∧
    (retryGo outcomes a fuel).2.2.length = (retryGo outcomes a fuel).2.1 - a ∧
    (∀ k, a ≤ k → k < (retryGo outcomes a fuel).2.1 →
      ∃ e, outcomes k = Except.error e ∧ isAuthError e = true) := by
  induction fuel generalizing a with
  | zero =>
    refine ⟨Nat.le_refl a, Nat.le_max_left _ _, ?_, ?_, ?_⟩
    · intro d hd; simp [retryGo] at hd
    · simp [retryGo]
    · intro k hk1 hk2; simp [retryGo] at hk2; omega
  | succ fuel ih =>
    cases ho : outcomes a with
    | ok ans =>
      have hr : retryGo outcomes a (fuel + 1) = (QueryOutcome.success ans a, a, []) := by
        simp [retryGo, ho]
      rw [hr]
      refine ⟨Nat.le_refl a, Nat.le_max_left _ _, ?_, by simp, ?_⟩
      · intro d hd; simp at hd
      · intro k hk1 hk2; simp at hk2; omega
    | error e =>
      by_cases hcond : (isAuthError e && decide (a < MAX_RETRIES)) = true
      · have hr : retryGo outcomes a (fuel + 1) =
            ((retryGo outcomes (a + 1) fuel).1, (retryGo outcomes (a + 1) fuel).2.1,
              RETRY_DELAY_MS :: (retryGo outcomes (a + 1) fuel).2.2) := by
          simp [retryGo, ho, hcond]
        obtain ⟨ih1, ih2, ih3, ih4, ih5⟩ := ih (a + 1)
        have hlt : a < MAX_RETRIES := by
          have := (Bool.and_eq_true _ _).mp hcond
          exact of_decide_eq_true this.2
        have hauth : isAuthError e = true := ((Bool.and_eq_true _ _).mp hcond).1
        rw [hr]
        refine ⟨?_, ?_, ?_, ?_, ?_⟩
        · exact Nat.le_trans (Nat.le_succ a) ih1
        · exact Nat.le_trans ih2 (by simp only [Nat.max_le]; omega)
        · intro d hd
          simp only [List.mem_cons] at hd
          rcases hd with rfl | hd
          · rfl
          · exact ih3 d hd
        · simp only [List.length_cons, ih4]; omega
        · intro k hk1 hk2
          simp only at hk2
          rcases Nat.eq_or_lt_of_le hk1 with rfl | hk1'
          · exact ⟨e, ho, hauth⟩
          · exact ih5 k hk1' hk2
      · have hr : retryGo outcomes a (fuel + 1) = (QueryOutcome.exhausted e, a, []) := by
          simp only [retryGo, ho]
          rw [if_neg (by simpa using hcond)]
        rw [hr]
        refine ⟨Nat.le_refl a, Nat.le_max_left _ _, ?_, by simp, ?_⟩
        · intro d hd; simp at hd
        · intro k hk1 hk2; simp at hk2; omega

/-- C5: the retrying `handleQuery` performs between 1 and 3 attempts, every
inter-attempt sleep is the fixed 2500 ms (one sleep per extra attempt), and
every attempt before the last one failed with a message matching the
authentication/session vocabulary — so a success or a non-auth failure ends
the loop immediately, and only auth-classified failures are retried. -/
theorem retry_policy (outcomes : Nat → Except String String) :
    1 ≤ (handleQueryRetry outcomes).2.1 ∧
    (handleQueryRetry outcomes).2.1 ≤ MAX_RETRIES ∧
    (∀ d ∈ (handleQueryRetry outcomes).2.2, d = RETRY_DELAY_MS) ∧
    (handleQueryRetry outcomes).2.2.length = (handleQueryRetry outcomes).2.1 - 1 ∧
    (∀ k, 1 ≤ k → k < (handleQueryRetry outcomes).2.1 →
      ∃ e, outcomes k = Except.error e ∧ isAuthError e = true) := by
  obtain ⟨h1, h2, h3, h4, h5⟩ := retryGo_spec outcomes MAX_RETRIES 1
  refine ⟨h1, ?_, h3, h4, h5⟩
  calc (handleQueryRetry outcomes).2.1 ≤ max 1 MAX_RETRIES := h2
    _ = MAX_RETRIES := rfl

theorem retry_policy_witness :
    (∀ d ∈ (handleQueryRetry fun _ =>
        Except.error "Failed to authenticate session").2.2, d = RETRY_DELAY_MS) ∧
      (handleQueryRetry fun _ =>
        Except.error "Failed to authenticate session").2.1 ≤ MAX_RETRIES :=
  ⟨(retry_policy fun _ => Except.error "Failed to authenticate session").2.2.1,
    (retry_policy fun _ => Except.error "Failed to authenticate session").2.1⟩

/-- C6 counterexample: the exhaustion message interpolates the last
attempt's raw error message verbatim, so an internal selector name carried
by that message appears in the user-visible text — the claim's "never
contains a raw internal error … or internal selector name" fails. -/
theorem exhaustion_contains_raw_error :
    strIncludes
      (exhaustionText
        "page.waitForSelector: Timeout 30000ms exceeded for textarea.query-box-input")
      "textarea.query-box-input" = true := by
  decide

/-- C6 (amended): on exhaustion the message does distinguish a likely
auth/session failure (naming re-authentication via `setup_auth` as the
remedy) from an unknown failure (pointing at installation/session checks),
but the final attempt's raw error message is embedded verbatim in the text;
no stack trace is included (only `err.message` is interpolated). -/
theorem exhaustion_message_structure (m : String) :
    (isAuthError m = true →
      strIncludes (exhaustionText m) "re-authenticate" = true) ∧
    (isAuthError m = false →
      strIncludes (exhaustionText m) "Make sure" = true) ∧
    strIncludes (exhaustionText m) m = true := by
  refine ⟨?_, ?_, ?_⟩
  · intro hauth
    unfold exhaustionText
    rw [hauth, if_pos rfl]
    exact strIncludes_of_append _ _ _ (by decide)
  · intro hauth
    unfold exhaustionText
    rw [hauth]
    simp only [Bool.false_eq_true, if_false]
    exact strIncludes_of_append _ _ _ (by decide)
  · unfold exhaustionText
    rw [strIncludes_iff]
    refine ⟨("## ⚠️ Digital PM Query Unavailable\n\nFailed after " ++
        toString MAX_RETRIES ++ " attempts: **").data, ("**\n\n" ++
        (if isAuthError m then authFixText else unknownFixText)).data, ?_⟩
    simp [List.append_assoc]

theorem exhaustion_message_structure_witness :
    strIncludes (exhaustionText "Failed to authenticate session") "re-authenticate" = true :=
  (exhaustion_message_structure "Failed to authenticate session").1 (by decide)

/-- C9 counterexample: the broad fallback scan of `parseDDGResults` only
excludes URLs whose authority right after the scheme is `duckduckgo.com` or
`www.duckduckgo.com`; a result-page URL on the `html.duckduckgo.com`
subdomain passes the lookahead and is returned, although it contains
`duckduckgo.com` — so the parser does not drop every such URL. -/
theorem ddg_fallback_returns_ddg_url :
    parseDDGResults ⟨[], ["https://html.duckduckgo.com/html/?q=test123"]⟩ =
        [⟨"https://html.duckduckgo.com/html/?q=test123",
          "https://html.duckduckgo.com/html/?q=test123", ""⟩] ∧
      strIncludes "https://html.duckduckgo.com/html/?q=test123" "duckduckgo.com" = true := by
  decide

/-- C9 (amended): the primary result path of `parseDDGResults` drops every
URL containing `duckduckgo.com`, and the init flow filters the collected
URLs again before `addUrlSources`, so no such URL reaches a submission via
init; the broad fallback, however, only drops URLs whose authority directly
after the scheme is `(www.)duckduckgo.com`. -/
theorem ddg_url_filtering (page : DDGPage)
    (research : List (String × List SearchResult)) :
    (∀ r ∈ ddgPrimaryResults page, strIncludes r.url "duckduckgo.com" = false) ∧
    (∀ r ∈ ddgFallbackResults page, lookaheadOk r.url = true) ∧
    (∀ u ∈ initCollectUrls research, strIncludes u "duckduckgo.com" = false) := by
  refine ⟨?_, ?_, ?_⟩
  · intro r hr
    unfold ddgPrimaryResults at hr
    rw [List.mem_filterMap] at hr
    obtain ⟨ent, _, hf⟩ := hr
    split at hf
    · exact absurd hf (by simp)
    · split at hf
      · exact absurd hf (by simp)
      · rename_i url heq hcond
        have hru : r.url = url := by
          have := Option.some.inj hf
          rw [← this]
        rw [hru]
        have hfalse : (decide (url = "") || strIncludes url "duckduckgo.com") = false := by
          simpa using hcond
        exact (Bool.or_eq_false_iff.mp hfalse).2
  · intro r hr
    unfold ddgFallbackResults at hr
    rw [List.mem_map] at hr
    obtain ⟨u, hu, hru⟩ := hr
    have := (List.mem_filter.mp (List.mem_of_mem_take hu)).2
    rw [← hru]
    exact this
  · intro u hu
    unfold initCollectUrls at hu
    have := (List.mem_filter.mp hu).2
    rcases Bool.and_eq_true _ _ |>.mp this with ⟨_, h2⟩
    simpa using h2

theorem ddg_url_filtering_witness :
    strIncludes "https://example.com/pricing" "duckduckgo.com" = false :=
  (ddg_url_filtering ⟨[(some "https://example.com/pricing", "Example", "snippet")], []⟩ []).1
    ⟨"https://example.com/pricing", "Example", "snippet"⟩ (by decide)

/-- C10: the subprocess `callNotebookLM` throws exactly the embedded error
string when the joined text is brace-initial JSON parsing to an object with
`success === false` and a string `error` field (so e.g.
`Failed to authenticate session` reaches the retry classifier), and in
every other case where the RPC succeeded it returns the joined text
unchanged. -/
theorem subprocess_auth_detection (text : String) (parsed : Option JVal) :
    (∀ fields e, parsed = some (JVal.jobj fields) →
      strStartsWith (trimStr text) "\x7b" = true →
      jlookup fields "success" = some (JVal.jbool false) →
      jlookup fields "error" = some (JVal.jstr e) →
      detectAuthFailure text parsed = Except.error e) ∧
    (∀ e, detectAuthFailure text parsed = Except.error e →
      strStartsWith (trimStr text) "\x7b" = true ∧
      ∃ fields, parsed = some (JVal.jobj fields) ∧
        jlookup fields "success" = some (JVal.jbool false) ∧
        jlookup fields "error" = some (JVal.jstr e)) ∧
    ((∃ e, detectAuthFailure text parsed = Except.error e) ∨
      detectAuthFailure text parsed = Except.ok text) := by
  by_cases hb : strStartsWith (trimStr text) "\x7b" = true
  · refine ⟨?_, ?_, ?_⟩
    · intro fields e hp _ hs he
      subst hp
      unfold detectAuthFailure
      rw [if_pos hb]
      simp only [hs, he]
    · intro e he
      unfold detectAuthFailure at he
      rw [if_pos hb] at he
      refine ⟨hb, ?_⟩
      split at he
      · rename_i fields
        split at he
        · rename_i s hs her
          exact ⟨fields, rfl, hs, by rw [← Except.error.inj he]; exact her⟩
        · exact absurd he (by simp)
      · exact absurd he (by simp)
    · unfold detectAuthFailure
      rw [if_pos hb]
      split
      · split
        · rename_i s _ _
          exact Or.inl ⟨s, rfl⟩
        · exact Or.inr rfl
      · exact Or.inr rfl
  · refine ⟨?_, ?_, Or.inr ?_⟩
    · intro fields e _ hs _ _
      exact absurd hs hb
    · intro e he
      unfold detectAuthFailure at he
      rw [if_neg hb] at he
      exact absurd he (by simp)
    · unfold detectAuthFailure
      rw [if_neg hb]

theorem subprocess_auth_detection_witness :
    detectAuthFailure "\x7b\"success\":false,\"error\":\"Failed to authenticate session\"\x7d"
        (some (JVal.jobj [("success", JVal.jbool false),
          ("error", JVal.jstr "Failed to authenticate session")])) =
      Except.error "Failed to authenticate session" :=
  (subprocess_auth_detection
      "\x7b\"success\":false,\"error\":\"Failed to authenticate session\"\x7d"
      (some (JVal.jobj [("success", JVal.jbool false),
        ("error", JVal.jstr "Failed to authenticate session")]))).1
    [("success", JVal.jbool false), ("error", JVal.jstr "Failed to authenticate session")]
    "Failed to authenticate session" rfl (by decide) rfl rfl

theorem tripleAt_self (p : String) (hp : p ≠ "") (ts : List String) :
    tripleAt p (p :: p :: ts) = true := by
  simp [tripleAt, hp]

theorem tripleAt_head_ne (a t : String) (ts : List String) (h : a = "" ∨ a ≠ t) :
    tripleAt a (t :: ts) = false := by
  cases ts with
  | nil => rfl
  | cons c r =>
    rcases h with h | h
    · simp [tripleAt, h]
    · simp [tripleAt, h]

theorem tripleAt_pair_ne (a b c : String) (r : List String) (h : b ≠ c) :
    tripleAt a (b :: c :: r) = false := by
  simp [tripleAt, h]

theorem tripleAt_empty (xs : List String) : tripleAt "" xs = false := by
  cases xs with
  | nil => rfl
  | cons b r =>
    cases r with
    | nil => rfl
    | cons c r' => simp [tripleAt]

theorem hasTriple_cons_empty (xs : List String) :
    hasTriple ("" :: xs) = hasTriple xs := by
  simp [hasTriple, tripleAt_empty]

theorem pollLoop_cons_low (s : StabState) (t : String) (ts : List String)
    (h : (stabStep s t).count < 2) :
    pollLoop s (t :: ts) = pollLoop (stabStep s t) ts := by
  show (if 2 ≤ (stabStep s t).count then some t else pollLoop (stabStep s t) ts) = _
  rw [if_neg (by omega)]

theorem pollLoop_cons_high (s : StabState) (t : String) (ts : List String)
    (h : 2 ≤ (stabStep s t).count) :
    pollLoop s (t :: ts) = some t := by
  show (if 2 ≤ (stabStep s t).count then some t else pollLoop (stabStep s t) ts) = _
  rw [if_pos h]

/-- The four loop states reachable from the start — no previous read, an
empty previous read, one non-empty read, two equal non-empty reads — each
decide acceptance exactly like `hasTriple` on the pending reads plus the
remaining polls. -/
theorem pollLoop_isSome (ts : List String) :
    ((pollLoop ⟨none, 0⟩ ts).isSome = hasTriple ts) ∧
    ((pollLoop ⟨some "", 0⟩ ts).isSome = hasTriple ts) ∧
    (∀ p, p ≠ "" → (pollLoop ⟨some p, 0⟩ ts).isSome = hasTriple (p :: ts)) ∧
    (∀ p, p ≠ "" → (pollLoop ⟨some p, 1⟩ ts).isSome = hasTriple (p :: p :: ts)) := by
  induction ts with
  | nil =>
    refine ⟨rfl, rfl, fun p hp => ?_, fun p hp => ?_⟩
    · simp [pollLoop, hasTriple, tripleAt]
    · simp [pollLoop, hasTriple, tripleAt]
  | cons t ts ih =>
    obtain ⟨ih0, ihE, ih1, ih2⟩ := ih
    have hstep0 : stabStep ⟨none, 0⟩ t = ⟨some t, 0⟩ := by
      unfold stabStep
      rw [if_neg (by simp)]
    have hstepE : stabStep ⟨some "", 0⟩ t = ⟨some t, 0⟩ := by
      unfold stabStep
      rw [if_neg ?_]
      rintro ⟨ht, hlast⟩
      exact ht (Option.some.inj hlast).symm
    have htail0 : (pollLoop ⟨some t, 0⟩ ts).isSome = hasTriple (t :: ts) := by
      by_cases ht : t = ""
      · subst ht
        rw [hasTriple_cons_empty]
        exact ihE
      · exact ih1 t ht
    refine ⟨?_, ?_, ?_, ?_⟩
    · rw [pollLoop_cons_low _ _ _ (by rw [hstep0]; exact Nat.zero_lt_two), hstep0]
      exact htail0
    · rw [pollLoop_cons_low _ _ _ (by rw [hstepE]; exact Nat.zero_lt_two), hstepE]
      exact htail0
    · intro p hp
      by_cases htp : t = p
      · subst htp
        have hstep : stabStep ⟨some t, 0⟩ t = ⟨some t, 1⟩ := by
          unfold stabStep
          rw [if_pos ⟨hp, rfl⟩]
        rw [pollLoop_cons_low _ _ _ (by rw [hstep]; exact Nat.one_lt_two), hstep]
        exact ih2 t hp
      · have hstep : stabStep ⟨some p, 0⟩ t = ⟨some t, 0⟩ := by
          unfold stabStep
          rw [if_neg ?_]
          rintro ⟨ht, hlast⟩
          exact htp (Option.some.inj hlast).symm
        rw [pollLoop_cons_low _ _ _ (by rw [hstep]; exact Nat.zero_lt_two), hstep]
        have hskip : hasTriple (p :: t :: ts) = hasTriple (t :: ts) := by
          have := tripleAt_head_ne p t ts (Or.inr fun h => htp h.symm)
          simp [hasTriple, this]
        rw [hskip]
        exact htail0
    · intro p hp
      by_cases htp : t = p
      · subst htp
        have hstep : stabStep ⟨some t, 1⟩ t = ⟨some t, 2⟩ := by
          unfold stabStep
          rw [if_pos ⟨hp, rfl⟩]
        rw [pollLoop_cons_high _ _ _ (by rw [hstep])]
        simp [hasTriple, tripleAt_self t hp]
      · have hstep : stabStep ⟨some p, 1⟩ t = ⟨some t, 0⟩ := by
          unfold stabStep
          rw [if_neg ?_]
          rintro ⟨ht, hlast⟩
          exact htp (Option.some.inj hlast).symm
        rw [pollLoop_cons_low _ _ _ (by rw [hstep]; exact Nat.zero_lt_two), hstep]
        have hskip1 : hasTriple (p :: p :: t :: ts) = hasTriple (p :: t :: ts) := by
          have := tripleAt_pair_ne p p t ts (fun h => htp h.symm)
          simp [hasTriple, this]
        have hskip2 : hasTriple (p :: t :: ts) = hasTriple (t :: ts) := by
          have := tripleAt_head_ne p t ts (Or.inr fun h => htp h.symm)
          simp [hasTriple, this]
        rw [hskip1, hskip2]
        exact htail0

theorem hasTriple_iff (xs : List String) :
    hasTriple xs = true ↔ ∃ t l r, t ≠ "" ∧ xs = l ++ t :: t :: t :: r := by
  induction xs with
  | nil =>
    simp only [hasTriple]
    constructor
    · intro h
      exact absurd h (by simp)
    · rintro ⟨t, l, r, ht, hl⟩
      cases l <;> simp at hl
  | cons a xs ih =>
    simp only [hasTriple, Bool.or_eq_true, ih]
    constructor
    · rintro (htrip | ⟨t, l, r, ht, rfl⟩)
      · match xs, htrip with
        | b :: c :: rest, htrip =>
          simp only [tripleAt, Bool.and_eq_true, beq_iff_eq, decide_eq_true_eq] at htrip
          obtain ⟨⟨ha, hab⟩, hbc⟩ := htrip
          exact ⟨a, [], rest, ha, by rw [← hab, ← hbc, ← hab]; rfl⟩
      · exact ⟨t, a :: l, r, ht, rfl⟩
    · rintro ⟨t, l, r, ht, heq⟩
      cases l with
      | nil =>
        left
        simp only [List.nil_append] at heq
        obtain ⟨rfl, hxs⟩ := List.cons.inj heq
        rw [hxs]
        exact tripleAt_self a ht r
      | cons x l' =>
        right
        simp only [List.cons_append] at heq
        obtain ⟨rfl, hxs⟩ := List.cons.inj heq
        exact ⟨t, l', r, ht, hxs⟩

/-- C1: the query engine returns a response exactly when the poll sequence
contains three consecutive identical non-empty reads — equivalently, when
the polls it consumes end in such a run — and any poll whose text differs
from the previous poll (or is empty) resets the stabilization counter to
zero while polling continues on the remaining polls. -/
theorem stabilization_iff_triple (polls : List String) :
    ((queryNotebook polls).isSome = true ↔
      ∃ t l r, t ≠ "" ∧ polls = l ++ t :: t :: t :: r) ∧
    (∀ s t ts, ¬(t ≠ "" ∧ s.last = some t) →
      stabStep s t = ⟨some t, 0⟩ ∧ pollLoop s (t :: ts) = pollLoop ⟨some t, 0⟩ ts) := by
  constructor
  · have h := (pollLoop_isSome polls).1
    unfold queryNotebook
    rw [h, hasTriple_iff]
  · intro s t ts h
    have h1 : stabStep s t = ⟨some t, 0⟩ := by
      unfold stabStep
      rw [if_neg h]
    refine ⟨h1, ?_⟩
    show (if 2 ≤ (stabStep s t).count then some t else pollLoop (stabStep s t) ts) =
      pollLoop ⟨some t, 0⟩ ts
    rw [h1]
    simp

theorem stabilization_iff_triple_witness :
    (queryNotebook
      ["Partial", "Partial answer", "Final answer", "Final answer", "Final answer"]).isSome
      = true :=
  (stabilization_iff_triple
      ["Partial", "Partial answer", "Final answer", "Final answer", "Final answer"]).1.mpr
    ⟨"Final answer", ["Partial", "Partial answer"], [], by decide, rfl⟩

end DigitalPM
